import Mathlib

/-!
Shallow embedding of the browsing-with-copilot tool-call broker, approval gate,
run/session protocol engine, and element-resolution engine, together with
theorems settling the specification claims.

Sources embedded:
- `extension/background.js` : approval gate (`requiresManualApproval`),
  tool-request handling (`onToolRequest`, `handleApproval`, `executeToolRequest`).
- backend `index.ts` (tool-call broker): `toolTimeoutMs`, `requestToolRoundTrip`
  timeout behaviour, `onToolResult`, `cancelRun`, `handleUserMessage` turn
  lifecycle, `ensureSingleCandidateBeforeAction`, the `createTools` handlers,
  `normalizeMessage`, `routeMessage` and the `ws.on("message")` handler.
- `extension/content.js` (element resolution): `isVisible`, `getElementLabel`,
  `isUniqueSelector`, `buildSelector`, `rankCandidate`, `findCandidates`.

JavaScript strings are modelled as Lean `String`/`List Char` (the scenarios use
ASCII only); JS `Map`s become association lists with unique keys; promise
settlement, HUD updates and outbound wire messages become explicit event lists.
-/

namespace CopilotBrowser

/-- The closed set of tool names (`ToolName` in `protocol.ts`). -/
inductive ToolName where
  | browser_find
  | browser_highlight
  | browser_click
  | browser_type
  | browser_navigate
  | browser_select_candidate
deriving DecidableEq, Repr

/-- The closed error taxonomy (`ToolResultError` in `protocol.ts`). -/
inductive ErrCode where
  | EXTENSION_NOT_READY
  | NO_ACTIVE_TAB
  | PERMISSION_DENIED
  | NOT_FOUND
  | TIMEOUT
  | CANCELLED
deriving DecidableEq, Repr

/-! ## String helpers (JS semantics)

`lowerChars` models `String.prototype.toLowerCase` on the character list;
`strIncludes hay needle` models `hay.includes(needle)` (substring containment,
true for the empty needle). -/

/-- Character list of a string lower-cased, modelling JS `toLowerCase` (the
vocabulary and scenario strings are ASCII, where the two coincide). -/
def lowerChars (s : String) : List Char :=
  s.data.map Char.toLower

/-- `strIncludes hay needle` models JS `hay.includes(needle)`. -/
def strIncludes : List Char → List Char → Bool
  | hay, needle =>
    match hay with
    | [] => needle.isEmpty
    | _ :: t => needle.isPrefixOf hay || strIncludes t needle

/-- Drop leading and trailing whitespace from a character list. -/
def trimChars (l : List Char) : List Char :=
  ((l.dropWhile Char.isWhitespace).reverse.dropWhile Char.isWhitespace).reverse

/-- JS `String.prototype.trim` (ASCII whitespace suffices here). -/
def jsTrim (s : String) : String :=
  String.mk (trimChars s.data)

/-! ## Approval gate (`extension/background.js`) -/

/-- The alternatives of `DANGEROUS_CLICK_RE` in `background.js`:
`/(delete|remove|purchase|buy|checkout|send|payment|pay|place order|confirm order|submit payment|transfer|confirm|submit|withdraw|irreversible)/i`. -/
def dangerousClickWords : List String :=
  ["delete", "remove", "purchase", "buy", "checkout", "send", "payment", "pay",
   "place order", "confirm order", "submit payment", "transfer", "confirm",
   "submit", "withdraw", "irreversible"]

/-- `DANGEROUS_CLICK_RE.test(s)`: the regex is an unanchored alternation of
literal words with the `i` flag, i.e. some vocabulary word occurs as a
substring of the lower-cased input. -/
def dangerousClickTest (s : String) : Bool :=
  dangerousClickWords.any (fun w => strIncludes (lowerChars s) (lowerChars w))

/-- An inbound `tool_request` as seen by the extension: the fields read by
`background.js` (`actionId`, `tool`, `params.selector`, `params.text`,
`params.query`, `params.url`, `params.label`, `ui.label`). -/
structure ExtToolRequest where
  actionId : String
  tool : ToolName
  selector : String
  text : String
  query : String
  url : String
  paramLabel : String
  uiLabel : String
deriving DecidableEq, Repr

/-- `requiresManualApproval` from `background.js` (lines 195-211), with the
extension's `state.autoRun` passed explicitly. The dangerous test runs on the
template string `` `${label} ${selector}` ``. -/
def requiresManualApproval (autoRun : Bool) (request : ExtToolRequest) : Bool :=
  if request.tool ≠ ToolName.browser_click ∧ request.tool ≠ ToolName.browser_type then
    false
  else if ¬ autoRun then
    true
  else if request.tool ≠ ToolName.browser_click then
    false
  else
    dangerousClickTest (request.uiLabel ++ " " ++ request.selector)

/-- The approval predicate exactly as the claim words it: the tool is click or
type, and either auto-run is disabled, or the tool is click and the request's
UI label **or** selector (separately) matches the dangerous vocabulary. -/
def claimApprovalPredicate (autoRun : Bool) (request : ExtToolRequest) : Bool :=
  (request.tool = ToolName.browser_click ∨ request.tool = ToolName.browser_type) ∧
    (¬ autoRun ∨
      (request.tool = ToolName.browser_click ∧
        (dangerousClickTest request.uiLabel ∨ dangerousClickTest request.selector)))

/-! ## JSON values and the protocol router (backend `index.ts`)

`JsonVal` models the values `JSON.parse` can produce. `normalizeMessage`
takes `none` when `JSON.parse` threw on the raw data. -/

inductive JsonVal where
  | null
  | boolVal (b : Bool)
  | numVal (n : Int)
  | strVal (s : String)
  | arrVal (elems : List JsonVal)
  | objVal (fields : List (String × JsonVal))

/-- `!parsed || typeof parsed !== "object"` rejected: only non-null objects
(including arrays) pass. -/
def jsonIsTruthyObject : JsonVal → Bool
  | .objVal _ => true
  | .arrVal _ => true
  | _ => false

/-- Property read `parsed.key` followed by the `typeof ... === "string"` check:
yields the field only when it exists and is a string. Array and primitive
property reads of a string key give `undefined`. -/
def getStrField (v : JsonVal) (key : String) : Option String :=
  match v with
  | .objVal fields =>
    match fields.lookup key with
    | some (.strVal s) => some s
    | _ => none
  | _ => none

/-- A validated inbound envelope (the three fields `normalizeMessage` checks,
plus the raw value for the per-type handlers). -/
structure WireMsg where
  msgType : String
  sessionId : String
  token : String
  raw : JsonVal

/-- `normalizeMessage` from the backend: `none` input models `JSON.parse`
throwing; otherwise the object check and the three string-field checks. -/
def normalizeMessage (raw : Option JsonVal) : Option WireMsg :=
  match raw with
  | none => none
  | some parsed =>
    if jsonIsTruthyObject parsed then
      match getStrField parsed "sessionId", getStrField parsed "token",
          getStrField parsed "type" with
      | some sid, some tok, some ty => some ⟨ty, sid, tok, parsed⟩
      | _, _, _ => none
    else
      none

/-- The message kinds `routeMessage` dispatches on. -/
inductive MsgTag where
  | user_message
  | user_approval
  | cancelMsg
  | tool_result
deriving DecidableEq, Repr

def msgTagOf (t : String) : Option MsgTag :=
  if t = "user_message" then some .user_message
  else if t = "user_approval" then some .user_approval
  else if t = "cancel" then some .cancelMsg
  else if t = "tool_result" then some .tool_result
  else none

/-- Outcome of the `ws.on("message")` handler for one raw envelope. -/
inductive RouteOutcome where
  | droppedMalformed
  /-- `ws.close(4001, "invalid token")`; no per-session handler runs. -/
  | closedInvalidToken
  /-- the corresponding per-session handler of `routeMessage` runs. -/
  | dispatched (tag : MsgTag)
  /-- the `default` case of `routeMessage` threw; the `ws.on("message")`
  wrapper catches and logs it, so no handler runs and nothing is closed. -/
  | unknownTypeError
deriving DecidableEq, Repr

/-- Whether the outcome closed the underlying channel. -/
def RouteOutcome.channelClosed : RouteOutcome → Bool
  | .closedInvalidToken => true
  | _ => false

/-- Whether some per-session handler ran. -/
def RouteOutcome.handlerRan : RouteOutcome → Bool
  | .dispatched _ => true
  | _ => false

/-- The `ws.on("message")` handler composed with `routeMessage`
(backend `index.ts`): drop silently when `normalizeMessage` returns null,
close on a token mismatch, otherwise dispatch by `type`. -/
def wsMessageHandler (secret : String) (raw : Option JsonVal) : RouteOutcome :=
  match normalizeMessage raw with
  | none => .droppedMalformed
  | some m =>
    if m.token ≠ secret then .closedInvalidToken
    else
      match msgTagOf m.msgType with
      | some tag => .dispatched tag
      | none => .unknownTypeError

/-- The claim's rejection condition on an inbound envelope: not well-formed
JSON, or lacking a string `type`/`sessionId`/`token`, or a token differing
from the shared secret. -/
def claimRejectedEnvelope (secret : String) (raw : Option JsonVal) : Prop :=
  normalizeMessage raw = none ∨
    ∃ m, normalizeMessage raw = some m ∧ m.token ≠ secret

/-! ## Tool-call broker and run lifecycle (backend `index.ts`)

`Map` becomes an association list with unique keys; promise settlement,
`clearTimeout`, outbound `assistant_final`/`step_event` messages and
`copilotSession.abort()` become explicit events. One turn is modelled by the
operations that touch the turn's `RunContext`: `tool_result` arrival, a
deadline timer firing, `appendStep`, `cancelRun`, and the two terminal
branches of `handleUserMessage` (the success path after `sendAndWait` and its
`catch` block). -/

/-- `RunContext` from the backend. -/
structure RunContext where
  cancelled : Bool
  finalSent : Bool
  steps : List String
deriving DecidableEq, Repr

/-- Broker-relevant session state: the active run and the pending tool-call
map (`pendingTools`), keyed by action id. An entry present in the map is
exactly an armed deadline timer plus an unsettled promise. -/
structure BrokerState where
  run : RunContext
  pendingTools : List (String × ToolName)
deriving DecidableEq, Repr

/-- How an awaited tool-call promise settles. -/
inductive Settlement where
  | resolved (actionId : String)
  | rejected (actionId : String) (error : ErrCode)
deriving DecidableEq, Repr

/-- Observable effects of the broker operations. -/
inductive BrokerEvent where
  | settle (s : Settlement)
  | timerCleared (actionId : String)
  | finalAnswer (text : String)
  | stepEvent (text : String)
  | abortRequested
deriving DecidableEq, Repr

/-- `toErrorCode` from the backend: any value outside the closed taxonomy is
normalized to `EXTENSION_NOT_READY`. `none` models a missing `error` field. -/
def toErrorCode (value : Option String) : ErrCode :=
  match value with
  | some "EXTENSION_NOT_READY" => .EXTENSION_NOT_READY
  | some "NO_ACTIVE_TAB" => .NO_ACTIVE_TAB
  | some "PERMISSION_DENIED" => .PERMISSION_DENIED
  | some "NOT_FOUND" => .NOT_FOUND
  | some "TIMEOUT" => .TIMEOUT
  | some "CANCELLED" => .CANCELLED
  | _ => .EXTENSION_NOT_READY

/-- `Map.get` on an association list. -/
def mapLookup {α : Type} (m : List (String × α)) (k : String) : Option α :=
  match m with
  | [] => none
  | e :: t => if e.1 = k then some e.2 else mapLookup t k

/-- `Map.delete` on an association list with unique keys. -/
def mapDelete {α : Type} (m : List (String × α)) (k : String) : List (String × α) :=
  m.filter (fun e => e.1 ≠ k)

/-- `Map.set` on an association list: replace in place, else append. -/
def mapSet {α : Type} (m : List (String × α)) (k : String) (v : α) : List (String × α) :=
  if (mapLookup m k).isSome then
    m.map (fun e => if e.1 = k then (k, v) else e)
  else
    m ++ [(k, v)]

/-- Per-tool deadlines, `toolTimeoutMs` from the backend:
5 s default, 30 s for navigation, 60 s for click/type. -/
def toolTimeoutMs (tool : ToolName) : Nat :=
  if tool = ToolName.browser_navigate then 30000
  else if tool = ToolName.browser_click ∨ tool = ToolName.browser_type then 60000
  else 5000

/-- The registration step of `requestToolRoundTrip`: arm the deadline timer and
record the `PendingToolCall` under its action id (the correlated
`tool_request` envelope carries `timeoutMs = toolTimeoutMs tool`). -/
def registerToolCall (s : BrokerState) (actionId : String) (tool : ToolName) :
    BrokerState :=
  { s with pendingTools := mapSet s.pendingTools actionId tool }

/-- `onToolResult` from the backend: a result whose action id misses the
pending map is a silent no-op; on a hit the timer is cleared, the entry
removed, and the promise resolved (`ok`) or rejected with
`toErrorCode message.error`. -/
def onToolResult (s : BrokerState) (actionId : String) (ok : Bool)
    (error : Option String) : BrokerState × List BrokerEvent :=
  match mapLookup s.pendingTools actionId with
  | none => (s, [])
  | some _ =>
    ({ s with pendingTools := mapDelete s.pendingTools actionId },
      [.timerCleared actionId,
       .settle (if ok then .resolved actionId else .rejected actionId (toErrorCode error))])

/-- The deadline timer callback inside `requestToolRoundTrip`: it can only
fire while the entry is still pending (every removal path first calls
`clearTimeout`); it removes the entry and rejects with `TIMEOUT`. -/
def fireToolTimeout (s : BrokerState) (actionId : String) :
    BrokerState × List BrokerEvent :=
  match mapLookup s.pendingTools actionId with
  | none => (s, [])
  | some _ =>
    ({ s with pendingTools := mapDelete s.pendingTools actionId },
      [.settle (.rejected actionId .TIMEOUT)])

/-- `appendStep` from the backend (with an active run). -/
def appendStepOp (s : BrokerState) (text : String) : BrokerState × List BrokerEvent :=
  ({ s with run := { s.run with steps := s.run.steps ++ [text] } }, [.stepEvent text])

/-- `cancelRun` from the backend, for a session with an active run: set the
cancelled flag, clear and reject every pending call with `CANCELLED`, request
the driver abort, and send the terminal cancelled answer unless a final was
already sent. -/
def cancelRun (s : BrokerState) : BrokerState × List BrokerEvent :=
  ({ run := { s.run with
        cancelled := true,
        finalSent := true },
     pendingTools := [] },
   (s.pendingTools.flatMap fun e => [.timerCleared e.1, .settle (.rejected e.1 .CANCELLED)]) ++
     [.abortRequested] ++
     (if s.run.finalSent then [] else [.finalAnswer "Cancelled by user."]))

/-- The tail of `handleUserMessage`'s success path: after `sendAndWait`
returns, the final answer is sent unless the run was cancelled or a final was
already sent. -/
def finishTurnSuccess (s : BrokerState) (text : String) : BrokerState × List BrokerEvent :=
  if s.run.cancelled ∨ s.run.finalSent then (s, [])
  else ({ s with run := { s.run with finalSent := true } }, [.finalAnswer text])

/-- The `catch` branch of `handleUserMessage`: suppressed after cancellation,
otherwise a `Failed:` final answer. -/
def failTurn (s : BrokerState) (message : String) : BrokerState × List BrokerEvent :=
  if s.run.cancelled then (s, [])
  else ({ s with run := { s.run with finalSent := true } },
        [.finalAnswer ("Failed: " ++ message)])

/-- Non-terminal events of one turn. -/
inductive TurnOp where
  | toolResult (actionId : String) (ok : Bool) (error : Option String)
  | fireTimeout (actionId : String)
  | register (actionId : String) (tool : ToolName)
  | step (text : String)
  | cancel
deriving DecidableEq, Repr

/-- Terminal event of one turn (`handleUserMessage` settles exactly one way). -/
inductive TurnEnd where
  | success (text : String)
  | failure (message : String)
deriving DecidableEq, Repr

def applyTurnOp (s : BrokerState) : TurnOp → BrokerState × List BrokerEvent
  | .toolResult id ok err => onToolResult s id ok err
  | .fireTimeout id => fireToolTimeout s id
  | .register id tool => (registerToolCall s id tool, [])
  | .step t => appendStepOp s t
  | .cancel => cancelRun s

def applyTurnEnd (s : BrokerState) : TurnEnd → BrokerState × List BrokerEvent
  | .success t => finishTurnSuccess s t
  | .failure m => failTurn s m

/-- Run a list of non-terminal operations, accumulating events. -/
def runTurnOps (s : BrokerState) : List TurnOp → BrokerState × List BrokerEvent
  | [] => (s, [])
  | op :: rest =>
    let r := applyTurnOp s op
    let r2 := runTurnOps r.1 rest
    (r2.1, r.2 ++ r2.2)

/-- A whole turn: non-terminal operations, then at most one terminal event. -/
def runTurn (s : BrokerState) (ops : List TurnOp) (fin : Option TurnEnd) :
    BrokerState × List BrokerEvent :=
  let r := runTurnOps s ops
  match fin with
  | none => r
  | some e =>
    let r2 := applyTurnEnd r.1 e
    (r2.1, r.2 ++ r2.2)

/-- Number of final answers among the events. -/
def countFinals (events : List BrokerEvent) : Nat :=
  events.countP fun e =>
    match e with
    | .finalAnswer _ => true
    | _ => false

/-- A fresh `RunContext` as created at the top of `handleUserMessage`. -/
def freshRun : RunContext := ⟨false, false, []⟩

/-! ## Candidate gating and the `createTools` handlers (backend `index.ts`)

Each handler is modelled up to the actuator boundary: `requestToolRoundTrip`'s
send becomes a recorded `ToolDispatch`, and the awaited round-trip outcome is
an explicit parameter (`rt`), since it is produced by the extension. Errors a
handler throws to the driver are the `Error` message strings of the source. -/

/-- `Candidate` from `protocol.ts`. -/
structure Candidate where
  id : String
  label : String
  selector : String
deriving DecidableEq, Repr

/-- The part of `SessionState` the tool handlers read and write. -/
structure ToolSessionState where
  lastFindCandidates : List Candidate
deriving DecidableEq, Repr

/-- Error message of the zero-candidate branch of
`ensureSingleCandidateBeforeAction`. -/
def zeroCandidatesMsg : String :=
  "Call browser.find first and identify a candidate before taking actions."

/-- Error message of the many-candidates branch. -/
def multipleCandidatesMsg : String :=
  "Multiple candidates are still unresolved. Ask the user to disambiguate by candidate id."

/-- `ensureSingleCandidateBeforeAction` from the backend. -/
def ensureSingleCandidateBeforeAction (s : ToolSessionState) (tool : ToolName) :
    Except String Unit :=
  if tool = ToolName.browser_find then .ok ()
  else if s.lastFindCandidates.length = 0 then .error zeroCandidatesMsg
  else if s.lastFindCandidates.length > 1 then .error multipleCandidatesMsg
  else .ok ()

/-- A correlated `tool_request` actually sent to the actuator. -/
structure ToolDispatch where
  tool : ToolName
  params : List (String × String)
  uiLabel : String
  timeoutMs : Nat
deriving DecidableEq, Repr

/-- What a handler returns to the driver on success. -/
inductive HandlerValue where
  | okUnit
  | findResult (candidates : List Candidate)
  | selected (c : Candidate)
  | navigated
deriving DecidableEq, Repr

/-- Result of running one tool handler: the updated session state, the
dispatches that reached the actuator, and the value returned (or error
thrown) to the driver. -/
structure HandlerOutcome where
  state : ToolSessionState
  dispatches : List ToolDispatch
  result : Except String HandlerValue
deriving Repr

/-- `candidateFromUnknown` from the backend: non-objects and objects lacking
string `id`/`label`/`selector` yield null. -/
def candidateFromUnknown (value : JsonVal) : Option Candidate :=
  match getStrField value "id", getStrField value "label",
      getStrField value "selector" with
  | some i, some l, some sel => some ⟨i, l, sel⟩
  | _, _, _ => none

/-- `parseFindResult` from the backend. -/
def parseFindResult (data : JsonVal) : List Candidate :=
  match data with
  | .objVal fields =>
    match fields.lookup "candidates" with
    | some (.arrVal items) => items.filterMap candidateFromUnknown
    | _ => []
  | _ => []

/-- `browser_click` handler from `createTools`. -/
def browserClickHandler (s : ToolSessionState) (selectorArg : String)
    (rt : Except String JsonVal) : HandlerOutcome :=
  match ensureSingleCandidateBeforeAction s ToolName.browser_click with
  | .error e => ⟨s, [], .error e⟩
  | .ok _ =>
    let selector := jsTrim selectorArg
    if selector = "" then ⟨s, [], .error "NOT_FOUND"⟩
    else
      let d : ToolDispatch :=
        ⟨ToolName.browser_click, [("selector", selector)],
         "clicking " ++ selector, toolTimeoutMs ToolName.browser_click⟩
      match rt with
      | .error e => ⟨s, [d], .error e⟩
      | .ok _ => ⟨s, [d], .ok .okUnit⟩

/-- `browser_highlight` handler from `createTools`. -/
def browserHighlightHandler (s : ToolSessionState) (selectorArg labelArg : String)
    (rt : Except String JsonVal) : HandlerOutcome :=
  match ensureSingleCandidateBeforeAction s ToolName.browser_highlight with
  | .error e => ⟨s, [], .error e⟩
  | .ok _ =>
    let selector := jsTrim selectorArg
    let label := jsTrim labelArg
    if selector = "" then ⟨s, [], .error "NOT_FOUND"⟩
    else
      let d : ToolDispatch :=
        ⟨ToolName.browser_highlight, [("selector", selector), ("label", label)],
         "highlighting " ++ (if label = "" then selector else label),
         toolTimeoutMs ToolName.browser_highlight⟩
      match rt with
      | .error e => ⟨s, [d], .error e⟩
      | .ok _ => ⟨s, [d], .ok .okUnit⟩

/-- `browser_type` handler from `createTools`. -/
def browserTypeHandler (s : ToolSessionState) (selectorArg textArg : String)
    (rt : Except String JsonVal) : HandlerOutcome :=
  match ensureSingleCandidateBeforeAction s ToolName.browser_type with
  | .error e => ⟨s, [], .error e⟩
  | .ok _ =>
    let selector := jsTrim selectorArg
    if selector = "" then ⟨s, [], .error "NOT_FOUND"⟩
    else
      let d : ToolDispatch :=
        ⟨ToolName.browser_type, [("selector", selector), ("text", textArg)],
         "typing into " ++ selector, toolTimeoutMs ToolName.browser_type⟩
      match rt with
      | .error e => ⟨s, [d], .error e⟩
      | .ok _ => ⟨s, [d], .ok .okUnit⟩

/-- `browser_navigate` handler from `createTools`: on a successful round trip
the session's last-find-candidates list is reset to empty. -/
def browserNavigateHandler (s : ToolSessionState) (urlArg : String)
    (rt : Except String JsonVal) : HandlerOutcome :=
  let url := jsTrim urlArg
  if url = "" then ⟨s, [], .error "NOT_FOUND"⟩
  else
    let d : ToolDispatch :=
      ⟨ToolName.browser_navigate, [("url", url)], "navigating to " ++ url,
       toolTimeoutMs ToolName.browser_navigate⟩
    match rt with
    | .error e => ⟨s, [d], .error e⟩
    | .ok _ => ⟨{ lastFindCandidates := [] }, [d], .ok .navigated⟩

/-- `browser_find` handler from `createTools`: an empty query returns an empty
result without a round trip (and without touching the candidate list);
otherwise the parsed candidates replace `lastFindCandidates` wholesale. -/
def browserFindHandler (s : ToolSessionState) (queryArg : String)
    (rt : Except String JsonVal) : HandlerOutcome :=
  let query := jsTrim queryArg
  if query = "" then ⟨s, [], .ok (.findResult [])⟩
  else
    let d : ToolDispatch :=
      ⟨ToolName.browser_find, [("query", query)], "finding " ++ query,
       toolTimeoutMs ToolName.browser_find⟩
    match rt with
    | .error e => ⟨s, [d], .error e⟩
    | .ok raw =>
      let parsed := parseFindResult raw
      ⟨{ lastFindCandidates := parsed }, [d], .ok (.findResult parsed)⟩

/-- `browser_select_candidate` handler from `createTools`: narrows the last
candidate list to the chosen one; an unknown id throws `NOT_FOUND`. -/
def browserSelectCandidateHandler (s : ToolSessionState) (idArg : String) :
    HandlerOutcome :=
  let i := jsTrim idArg
  match s.lastFindCandidates.find? (fun c => c.id = i) with
  | none => ⟨s, [], .error "NOT_FOUND"⟩
  | some c => ⟨{ lastFindCandidates := [c] }, [], .ok (.selected c)⟩

/-! ## Extension tool-request handling (`extension/background.js`)

`onToolRequest`, `handleApproval` and `executeToolRequest`, with the page
actuator's reply passed as an explicit parameter. Actuator commands
(the `copilot_tool` messages of kind find/highlight/click/type and the tab
navigation) are recorded as `pageDispatch` events; HUD status text is page
feedback, recorded separately as `hud` events. -/

/-- Actuator commands the extension can execute in the active tab. -/
inductive PageCmd where
  | findCmd (query : String)
  | highlightCmd (selector label : String)
  | clickCmd (selector : String)
  | typeCmd (selector text : String)
  | navigateCmd (url : String)
deriving DecidableEq, Repr

/-- Messages the extension sends back over the WebSocket. -/
inductive ExtOutMsg where
  | user_approval (actionId : String) (approved : Bool)
  | tool_result_ok (actionId : String)
  | tool_result_err (actionId : String) (error : ErrCode)
deriving DecidableEq, Repr

/-- `state.pendingAction` in `background.js`. -/
structure PendingAction where
  actionId : String
  tool : ToolName
  label : String
deriving DecidableEq, Repr

/-- The extension background state the approval flow touches. -/
structure ExtState where
  autoRun : Bool
  pendingToolRequests : List (String × ExtToolRequest)
  pendingAction : Option PendingAction
deriving DecidableEq, Repr

/-- Observable effects of the extension handlers. -/
inductive ExtEvent where
  | pageDispatch (cmd : PageCmd)
  | hud (message : String)
  | sent (m : ExtOutMsg)
  | approvalNeeded (actionId : String)
deriving DecidableEq, Repr

/-- The actuator command `executeToolRequest` issues for a request; `none`
for tools its if/else chain does not know (it then throws
`EXTENSION_NOT_READY` before attempting anything against the page). -/
def pageCmdOf (request : ExtToolRequest) : Option PageCmd :=
  match request.tool with
  | .browser_find => some (.findCmd request.query)
  | .browser_navigate => some (.navigateCmd request.url)
  | .browser_highlight => some (.highlightCmd request.selector request.paramLabel)
  | .browser_click => some (.clickCmd request.selector)
  | .browser_type => some (.typeCmd request.selector request.text)
  | .browser_select_candidate => none

/-- `ErrCode` rendered as its wire string. -/
def errCodeStr : ErrCode → String
  | .EXTENSION_NOT_READY => "EXTENSION_NOT_READY"
  | .NO_ACTIVE_TAB => "NO_ACTIVE_TAB"
  | .PERMISSION_DENIED => "PERMISSION_DENIED"
  | .NOT_FOUND => "NOT_FOUND"
  | .TIMEOUT => "TIMEOUT"
  | .CANCELLED => "CANCELLED"

/-- `executeToolRequest` from `background.js`: dispatch the actuator command,
report `Done`/`Failed` on the HUD, send the correlated `tool_result`, then
drop the request from the pending map (and clear a matching pending action).
`pageReply` is the actuator's reply, already normalized to the taxonomy by
`normalizeErrorCode`/`withTimeout`. -/
def executeToolRequest (pageReply : Except ErrCode Unit) (s : ExtState)
    (request : ExtToolRequest) : ExtState × List ExtEvent :=
  let cleanup : ExtState :=
    { s with
      pendingToolRequests := mapDelete s.pendingToolRequests request.actionId,
      pendingAction :=
        match s.pendingAction with
        | some p => if p.actionId = request.actionId then none else some p
        | none => none }
  match pageCmdOf request with
  | none =>
    (cleanup,
     [.hud "Failed: EXTENSION_NOT_READY",
      .sent (.tool_result_err request.actionId .EXTENSION_NOT_READY)])
  | some cmd =>
    match pageReply with
    | .ok _ =>
      (cleanup,
       [.pageDispatch cmd, .hud "Done",
        .sent (.tool_result_ok request.actionId)])
    | .error code =>
      (cleanup,
       [.pageDispatch cmd, .hud ("Failed: " ++ errCodeStr code),
        .sent (.tool_result_err request.actionId code)])

/-- `onToolRequest` from `background.js`: record the request, show the HUD
banner, then either suspend on the approval gate or execute immediately. -/
def onToolRequest (pageReply : Except ErrCode Unit) (s : ExtState)
    (request : ExtToolRequest) : ExtState × List ExtEvent :=
  let s1 : ExtState :=
    { s with pendingToolRequests := mapSet s.pendingToolRequests request.actionId request }
  let banner : ExtEvent := .hud ("Copilot: " ++ request.uiLabel ++ "...")
  if requiresManualApproval s.autoRun request then
    ({ s1 with pendingAction := some ⟨request.actionId, request.tool, request.uiLabel⟩ },
     [banner, .approvalNeeded request.actionId])
  else
    let r := executeToolRequest pageReply s1 request
    (r.1, banner :: r.2)

/-- `handleApproval` from `background.js`: unknown action ids are ignored; a
denial synthesizes a `PERMISSION_DENIED` result without executing; an
approval hands off to `executeToolRequest`. -/
def handleApproval (pageReply : Except ErrCode Unit) (s : ExtState)
    (actionId : String) (approved : Bool) : ExtState × List ExtEvent :=
  match mapLookup s.pendingToolRequests actionId with
  | none => (s, [])
  | some request =>
    let s1 : ExtState := { s with pendingAction := none }
    let approvalMsg : ExtEvent := .sent (.user_approval actionId approved)
    if ¬ approved then
      ({ s1 with pendingToolRequests := mapDelete s1.pendingToolRequests actionId },
       [approvalMsg, .hud "Failed: PERMISSION_DENIED",
        .sent (.tool_result_err actionId .PERMISSION_DENIED)])
    else
      let r := executeToolRequest pageReply s1 request
      (r.1, approvalMsg :: r.2)

/-- Whether an extension event is an actuator command dispatch. -/
def ExtEvent.isPageDispatch : ExtEvent → Bool
  | .pageDispatch _ => true
  | _ => false

/-! ## DOM model and element resolution (`extension/content.js`)

The live document is a tree of HTML elements. Computed style and layout are
carried on each node as the values the content script reads
(`getComputedStyle` and `getBoundingClientRect`); `opacityZero` stands for
`Number(style.opacity) === 0`. Tag names are stored in their canonical
lower-case form (the script lower-cases `tagName` everywhere it builds
selectors and labels). An element is identified by its path of child indices
from the root. Selectors are embedded as ASTs covering exactly the grammar
`buildSelector` emits (`#id`, `tag[attr="value"]`, `tag`,
`tag:nth-of-type(n)` chained with `>`); `cssEscape`/`attrEscape` followed by
CSS unescaping round-trip, so attribute values are compared raw. -/

structure Css where
  display : String
  visibility : String
  opacityZero : Bool
  width : Nat
  height : Nat
deriving DecidableEq, Repr

inductive Dom where
  | elem (tag : String) (attrs : List (String × String)) (css : Css)
      (innerText : String) (value : String) (children : List Dom)

def tagOf : Dom → String
  | .elem t _ _ _ _ _ => t

def attrsOf : Dom → List (String × String)
  | .elem _ a _ _ _ _ => a

def cssOf : Dom → Css
  | .elem _ _ c _ _ _ => c

def textOf : Dom → String
  | .elem _ _ _ t _ _ => t

def valueOf : Dom → String
  | .elem _ _ _ _ v _ => v

def childrenOf : Dom → List Dom
  | .elem _ _ _ _ _ cs => cs

/-- `element.getAttribute(name)`: `none` models `null`. -/
def attrOf (e : Dom) (name : String) : Option String :=
  (attrsOf e).lookup name

/-- Element at a path of child indices. -/
def elemAt : Dom → List Nat → Option Dom
  | d, [] => some d
  | d, i :: p =>
    match (childrenOf d)[i]? with
    | some c => elemAt c p
    | none => none

mutual

/-- All element paths of the document in document (pre-)order, the order
`querySelectorAll` enumerates. -/
def allPaths : Dom → List (List Nat)
  | .elem _ _ _ _ _ cs => [] :: allPathsChildren 0 cs

def allPathsChildren : Nat → List Dom → List (List Nat)
  | _, [] => []
  | i, c :: rest => (allPaths c).map (fun p => i :: p) ++ allPathsChildren (i + 1) rest

end

/-- 1-based position of the element among its same-tag siblings, the value
both CSS `:nth-of-type` and the content script's
`siblings.indexOf(current) + 1` compute. The root counts as first. -/
def nthOfTypeIndex (root : Dom) (p : List Nat) : Nat :=
  match p.getLast? with
  | none => 1
  | some i =>
    match elemAt root p.dropLast with
    | none => 1
    | some parent =>
      let cs := childrenOf parent
      match cs[i]? with
      | none => 1
      | some e => ((cs.take i).filter (fun c => tagOf c = tagOf e)).length + 1

/-- One segment of a selector string. -/
inductive SimpleSel where
  | idSel (id : String)
  | typeSel (tag : String)
  | attrSel (tag attr value : String)
  | nthOfType (tag : String) (n : Nat)
deriving DecidableEq, Repr

/-- A selector: a nonempty chain of segments joined by the child
combinator `>` (a single segment is the chain of length one). -/
structure Sel where
  parts : List SimpleSel
deriving DecidableEq, Repr

def SimpleSel.render : SimpleSel → String
  | .idSel i => "#" ++ i
  | .typeSel t => t
  | .attrSel t a v => t ++ "[" ++ a ++ "=\x22" ++ v ++ "\x22]"
  | .nthOfType t n => t ++ ":nth-of-type(" ++ toString n ++ ")"

def Sel.render (s : Sel) : String :=
  String.intercalate " > " (s.parts.map SimpleSel.render)

/-- Whether the element at `p` matches one segment. -/
def matchesSimple (root : Dom) (p : List Nat) (s : SimpleSel) : Bool :=
  match elemAt root p with
  | none => false
  | some e =>
    match s with
    | .idSel i => attrOf e "id" = some i
    | .typeSel t => tagOf e = t
    | .attrSel t a v => tagOf e = t ∧ attrOf e a = some v
    | .nthOfType t n => tagOf e = t ∧ nthOfTypeIndex root p = n

/-- Match a reversed chain (subject segment first) walking up the parents. -/
def matchesUp (root : Dom) : List SimpleSel → List Nat → Bool
  | [], _ => true
  | s :: rest, p =>
    matchesSimple root p s &&
      match rest with
      | [] => true
      | _ :: _ =>
        match p with
        | [] => false
        | _ :: _ => matchesUp root rest p.dropLast

/-- CSS semantics of a selector at an element path. -/
def matchesSel (root : Dom) (p : List Nat) (sel : Sel) : Bool :=
  matchesUp root sel.parts.reverse p

/-- `document.querySelectorAll(selector).length`. -/
def countMatches (root : Dom) (sel : Sel) : Nat :=
  ((allPaths root).filter (fun p => matchesSel root p sel)).length

/-- `isUniqueSelector` from the content script (our ASTs are always
syntactically valid, so the `catch` branch cannot fire). -/
def isUniqueSelector (root : Dom) (sel : Sel) : Bool :=
  countMatches root sel = 1

def selIfUnique (root : Dom) (s : Sel) : Option Sel :=
  if isUniqueSelector root s then some s else none

/-- The `tag:nth-of-type(i)` segment the structural fallback records for the
element at `p`. -/
def nthSegAt (root : Dom) (p : List Nat) : SimpleSel :=
  match elemAt root p with
  | none => .typeSel ""
  | some e => .nthOfType (tagOf e) (nthOfTypeIndex root p)

/-- The structural-fallback loop of `buildSelector`, recursing on the
reversed path (its head is the last child index, so the tail is the parent).
`.inl` is an early return with a verified-unique selector; `.inr` is loop
exit with the accumulated (possibly unverified) segments. The loop adds at
most 5 segments and stops without adding one at the root (no parent). -/
def structuralLoopRev (root : Dom) : List Nat → List SimpleSel → Sel ⊕ List SimpleSel
  | rev, segs =>
    if 5 ≤ segs.length then .inr segs
    else
      match rev with
      | [] => .inr segs
      | _ :: parentRev =>
        let seg := nthSegAt root rev.reverse
        let segs2 := seg :: segs
        if isUniqueSelector root ⟨segs2⟩ then .inl ⟨segs2⟩
        else structuralLoopRev root parentRev segs2

/-- `buildSelector` from the content script: the fallback chain id → name →
aria-label → test id → role → structural path, each attribute step taken only
when the attribute is truthy and the resulting selector is verified unique;
the structural loop's exit value is returned unverified (best effort), and an
empty accumulated path degrades to the bare tag selector. -/
def buildSelector (root : Dom) (p : List Nat) : Sel :=
  match elemAt root p with
  | none => ⟨[]⟩
  | some e =>
    let tag := tagOf e
    let idAttr := (attrOf e "id").getD ""
    match (if idAttr ≠ "" then selIfUnique root ⟨[.idSel idAttr]⟩ else none) with
    | some s => s
    | none =>
    let nameAttr := (attrOf e "name").getD ""
    match (if nameAttr ≠ "" then selIfUnique root ⟨[.attrSel tag "name" nameAttr]⟩ else none) with
    | some s => s
    | none =>
    let ariaAttr := (attrOf e "aria-label").getD ""
    match (if ariaAttr ≠ "" then selIfUnique root ⟨[.attrSel tag "aria-label" ariaAttr]⟩ else none) with
    | some s => s
    | none =>
    let t1 := (attrOf e "data-testid").getD ""
    let testId := if t1 ≠ "" then t1 else (attrOf e "data-test-id").getD ""
    match (if testId ≠ "" then selIfUnique root ⟨[.attrSel tag "data-testid" testId]⟩ else none) with
    | some s => s
    | none =>
    let roleAttr := (attrOf e "role").getD ""
    match (if roleAttr ≠ "" then selIfUnique root ⟨[.attrSel tag "role" roleAttr]⟩ else none) with
    | some s => s
    | none =>
      match structuralLoopRev root p.reverse [] with
      | .inl s => s
      | .inr segs => if segs.isEmpty then ⟨[.typeSel tag]⟩ else ⟨segs⟩

/-- `isVisible` from the content script (the `instanceof HTMLElement` guard
holds for every modelled node). -/
def isVisible (e : Dom) : Bool :=
  let c := cssOf e
  ¬ (c.visibility = "hidden") ∧ ¬ (c.display = "none") ∧ ¬ c.opacityZero ∧
    0 < c.width ∧ 0 < c.height

/-- Collapse whitespace runs to single spaces (`replace(/\s+/g, " ")`);
the flag records whether the previous character was part of a run. -/
def collapseWsAux : Bool → List Char → List Char
  | _, [] => []
  | prevSpace, c :: t =>
    if c.isWhitespace then
      if prevSpace then collapseWsAux true t
      else ' ' :: collapseWsAux true t
    else c :: collapseWsAux false t

/-- `getElementLabel` from the content script (the model carries
`element.innerText || element.textContent || ""` as one `innerText` field). -/
def getElementLabel (e : Dom) : String :=
  let aria := jsTrim ((attrOf e "aria-label").getD "")
  if aria ≠ "" then aria
  else
    let text := jsTrim (textOf e)
    if text ≠ "" then String.mk ((collapseWsAux false text.data).take 120)
    else
      let inputValue := if tagOf e = "input" then valueOf e else ""
      if jsTrim inputValue ≠ "" then jsTrim inputValue
      else
        let placeholder := jsTrim ((attrOf e "placeholder").getD "")
        if placeholder ≠ "" then placeholder
        else
          let nameAttr := jsTrim ((attrOf e "name").getD "")
          if nameAttr ≠ "" then nameAttr
          else tagOf e

/-- `normalizeText` from the content script, as a character list:
lower-case then trim. -/
def normChars (s : String) : List Char :=
  trimChars (lowerChars s)

/-- `query.split(/\s+/)` with empty pieces filtered out. -/
def splitWsAux (acc : List Char) : List Char → List (List Char)
  | [] => if acc.isEmpty then [] else [acc.reverse]
  | c :: t =>
    if c.isWhitespace then
      if acc.isEmpty then splitWsAux [] t
      else acc.reverse :: splitWsAux [] t
    else splitWsAux (c :: acc) t

def splitWsTokens (l : List Char) : List (List Char) :=
  splitWsAux [] l

/-- `rankCandidate` from the content script. -/
def rankCandidate (e : Dom) (queryText : String) : Nat :=
  let label := normChars (getElementLabel e)
  let role := normChars ((attrOf e "role").getD "")
  let nameAttr := normChars ((attrOf e "name").getD "")
  let placeholder := normChars ((attrOf e "placeholder").getD "")
  let href := normChars ((attrOf e "href").getD "")
  let query := normChars queryText
  if query.isEmpty then 0
  else
    let tokens := splitWsTokens query
    let sLabel := if strIncludes label query then 80 else 0
    let sName := if strIncludes nameAttr query || strIncludes placeholder query then 50 else 0
    let sRole := if strIncludes role query then 20 else 0
    let sHref := if strIncludes href query then 20 else 0
    let sTokens := (tokens.map fun t =>
      (if strIncludes label t then 15 else 0) +
        (if strIncludes nameAttr t || strIncludes placeholder t then 10 else 0) +
        (if strIncludes role t then 5 else 0) +
        (if strIncludes href t then 5 else 0)).sum
    let sVisible := if isVisible e then 10 else 0
    sLabel + sName + sRole + sHref + sTokens + sVisible

/-- The structural allow-list of `findCandidates` (the grouped selector
`"button, a[href], a[role='button'], input, textarea, select,
[role='button'], [aria-label], [name], [placeholder],
[contenteditable='true']"`). -/
def matchesAllowList (e : Dom) : Bool :=
  tagOf e = "button" ∨
    (tagOf e = "a" ∧ (attrOf e "href").isSome) ∨
    (tagOf e = "a" ∧ attrOf e "role" = some "button") ∨
    tagOf e = "input" ∨ tagOf e = "textarea" ∨ tagOf e = "select" ∨
    attrOf e "role" = some "button" ∨
    (attrOf e "aria-label").isSome ∨
    (attrOf e "name").isSome ∨
    (attrOf e "placeholder").isSome ∨
    attrOf e "contenteditable" = some "true"

/-- One scored element during resolution. -/
structure RankedItem where
  path : List Nat
  element : Dom
  score : Nat

/-- Stable insertion keeping existing elements of equal score in front,
matching the stable JS `sort((a, b) => b.score - a.score)`. -/
def sortedInsertDesc (x : RankedItem) : List RankedItem → List RankedItem
  | [] => [x]
  | y :: t => if y.score ≤ x.score then x :: y :: t else y :: sortedInsertDesc x t

def sortDescStable (l : List RankedItem) : List RankedItem :=
  l.foldr sortedInsertDesc []

/-- The scored, score-positive, sorted, capped element list of
`findCandidates` (everything before candidate objects are built). -/
def rankedElements (root : Dom) (query : String) : List RankedItem :=
  let paths := allPaths root
  let interactive := paths.filter fun p =>
    match elemAt root p with
    | some e => matchesAllowList e
    | none => false
  let visible := interactive.filter fun p =>
    match elemAt root p with
    | some e => isVisible e
    | none => false
  let scored := visible.filterMap fun p =>
    match elemAt root p with
    | some e => some (⟨p, e, rankCandidate e query⟩ : RankedItem)
    | none => none
  let positive := scored.filter fun item => 0 < item.score
  (sortDescStable positive).take 8

/-- `findCandidates` from the content script. -/
def findCandidates (root : Dom) (query : String) : List Candidate :=
  (rankedElements root query).enum.map fun pr =>
    { id := "cand-" ++ toString (pr.1 + 1),
      label := getElementLabel pr.2.element,
      selector := (buildSelector root pr.2.path).render }

/-! ## Concrete documents used in scenarios -/

/-- Computed style/layout of an ordinary visible element. -/
def plainCss : Css := ⟨"block", "visible", false, 100, 20⟩

/-- A plain `div` wrapper. -/
def mkDiv (cs : List Dom) : Dom := .elem "div" [] plainCss "" "" cs

/-- A bare `button` with no distinguishing attributes. -/
def cexButton : Dom := .elem "button" [] plainCss "" "" []

/-- Six levels of structure above nothing distinctive: `div > div > div >
div > div > button`. -/
def cexBranch : Dom := mkDiv [mkDiv [mkDiv [mkDiv [mkDiv [cexButton]]]]]

/-- A document whose body holds two identical deep branches, so the capped
5-segment structural path of either button matches both. -/
def cexDoc : Dom :=
  .elem "html" [] plainCss "" ""
    [.elem "body" [] plainCss "" "" [cexBranch, cexBranch]]

/-- The first branch's button inside `cexDoc`. -/
def cexBtnPath : List Nat := [0, 0, 0, 0, 0, 0, 0]

/-- The search input of spec Scenario A:
`<input name="q" placeholder="Search">`, visible. -/
def scInput : Dom :=
  .elem "input" [("name", "q"), ("placeholder", "Search")] plainCss "" "" []

/-- Scenario A document: a page whose only allow-listed element is the
search input (no textual match elsewhere). -/
def scDoc : Dom :=
  .elem "html" [] plainCss "" ""
    [.elem "body" [] plainCss "" "" [scInput]]

/-- A small document for the synthesizer witness: a button carrying an id. -/
def idBtnDoc : Dom :=
  .elem "html" [] plainCss "" ""
    [.elem "body" [] plainCss "" ""
      [.elem "button" [("id", "go")] plainCss "Go" "" []]]

theorem strIncludes_nil_needle (hay : List Char) : strIncludes hay [] = true := by
  cases hay <;> simp [strIncludes, List.isPrefixOf]

theorem strIncludes_append_right (l r w : List Char) (h : strIncludes l w = true) :
    strIncludes (l ++ r) w = true := by
  induction l with
  | nil =>
    simp [strIncludes] at h
    subst h
    exact strIncludes_nil_needle r
  | cons c t ih =>
    simp only [strIncludes, Bool.or_eq_true] at h ⊢
    rcases h with h | h
    · left
      rw [ List.isPrefixOf_iff_prefix] at h ⊢
      exact h.trans (List.prefix_append _ _)
    · right
      exact ih h

theorem lowerChars_append (s t : String) :
    lowerChars (s ++ t) = lowerChars s ++ lowerChars t := by
  simp [lowerChars, String.data_append]

theorem dangerousClickTest_append_right (s t : String)
    (h : dangerousClickTest s = true) : dangerousClickTest (s ++ t) = true := by
  simp only [dangerousClickTest, List.any_eq_true] at h ⊢
  obtain ⟨w, hw, hincl⟩ := h
  exact ⟨w, hw, by rw [lowerChars_append]; exact strIncludes_append_right _ _ _ hincl⟩

theorem mapLookup_delete_self {α : Type} (m : List (String × α)) (k : String) :
    mapLookup (mapDelete m k) k = none := by
  induction m with
  | nil => rfl
  | cons e t ih =>
    by_cases h : e.1 = k
    · simpa [mapDelete, h] using ih
    · simpa [mapDelete, mapLookup, h] using ih

theorem mapLookup_set_self {α : Type} (m : List (String × α)) (k : String) (v : α) :
    mapLookup (mapSet m k v) k = some v := by
  unfold mapSet
  by_cases h : (mapLookup m k).isSome
  · simp only [h, if_true]
    induction m with
    | nil => simp [mapLookup] at h
    | cons e t ih =>
      by_cases he : e.1 = k
      · simp [mapLookup, he]
      · simp only [mapLookup, he, if_false] at h
        simpa [mapLookup, he] using ih h
  · simp only [h, if_false]
    induction m with
    | nil => simp [mapLookup]
    | cons e t ih =>
      by_cases he : e.1 = k
      · simp [mapLookup, he] at h
      · simp only [mapLookup, he, if_false] at h
        simpa [mapLookup, he] using ih h

/-- C1: approval gate policy, amended: the predicate is true iff the tool is
click or type and either auto-run is disabled, or the tool is click and the
space-joined concatenation of the request's UI label and selector matches the
dangerous-action vocabulary; consequently tools other than click/type never
require approval, with auto-run disabled every click/type requires approval,
and with auto-run enabled type never requires approval while a click whose UI
label matches the vocabulary still does. -/
theorem C1_approval_gate_policy (autoRun : Bool) (request : ExtToolRequest) :
    (requiresManualApproval autoRun request = true ↔
      ((request.tool = ToolName.browser_click ∨ request.tool = ToolName.browser_type) ∧
        (autoRun = false ∨ (request.tool = ToolName.browser_click ∧
          dangerousClickTest (request.uiLabel ++ " " ++ request.selector) = true)))) ∧
    ((request.tool ≠ ToolName.browser_click ∧ request.tool ≠ ToolName.browser_type) →
      requiresManualApproval autoRun request = false) ∧
    (autoRun = false →
      (request.tool = ToolName.browser_click ∨ request.tool = ToolName.browser_type) →
      requiresManualApproval autoRun request = true) ∧
    (request.tool = ToolName.browser_type → autoRun = true →
      requiresManualApproval autoRun request = false) ∧
    (request.tool = ToolName.browser_click → dangerousClickTest request.uiLabel = true →
      requiresManualApproval autoRun request = true) := by
  obtain ⟨aid, tool, sel, txt, q, url, pl, lbl⟩ := request
  refine ⟨?_, ?_, ?_, ?_, ?_⟩
  · cases tool <;> cases autoRun <;> simp [requiresManualApproval]
  · intro h
    cases tool <;> cases autoRun <;> simp_all [requiresManualApproval]
  · intro h htool
    cases tool <;> cases autoRun <;> simp_all [requiresManualApproval]
  · intro h h2
    cases tool <;> simp_all [requiresManualApproval]
  · intro h hd
    subst h
    cases autoRun <;> simp [requiresManualApproval]
    have h1 : dangerousClickTest (lbl ++ " ") = true := dangerousClickTest_append_right _ _ hd
    have h2 : dangerousClickTest (lbl ++ " " ++ sel) = true := dangerousClickTest_append_right _ _ h1
    simpa using h2

/-- C1 counterexample: for a click with UI label "place" and selector "order"
under auto-run, the code requires approval (the dangerous test sees the
joined string "place order") while the claim's label-or-selector predicate
does not, so the claimed biconditional fails at this input. -/
theorem C1_counterexample :
    requiresManualApproval true ⟨"a1", ToolName.browser_click, "order", "", "", "", "", "place"⟩ = true ∧
    claimApprovalPredicate true ⟨"a1", ToolName.browser_click, "order", "", "", "", "", "place"⟩ = false := by
  decide

/-- C1 witness: a dangerous-labelled click requires approval under auto-run. -/
theorem C1_approval_gate_policy_witness :
    requiresManualApproval true ⟨"w1", ToolName.browser_click, "", "", "", "", "", "Delete item"⟩ = true :=
  (C1_approval_gate_policy true _).2.2.2.2 rfl (by decide)

/-- C2: resolving a pending approval with approved=false sends a tool_result
with ok=false and error PERMISSION_DENIED for that action id, dispatches no
actuator command against the page, removes the request, and clears the
pending action (HUD status text is page feedback, not a tool execution). -/
theorem C2_denied_approval (pageReply : Except ErrCode Unit) (s : ExtState)
    (actionId : String) (request : ExtToolRequest)
    (h : mapLookup s.pendingToolRequests actionId = some request) :
    (handleApproval pageReply s actionId false).2 =
      [ExtEvent.sent (.user_approval actionId false),
       ExtEvent.hud "Failed: PERMISSION_DENIED",
       ExtEvent.sent (.tool_result_err actionId .PERMISSION_DENIED)] ∧
    (∀ e ∈ (handleApproval pageReply s actionId false).2, e.isPageDispatch = false) ∧
    mapLookup (handleApproval pageReply s actionId false).1.pendingToolRequests actionId = none ∧
    (handleApproval pageReply s actionId false).1.pendingAction = none := by
  simp [handleApproval, h, ExtEvent.isPageDispatch, mapLookup_delete_self]

/-- C2 witness: Scenario B, a click labelled "Submit Payment" with auto-run
enabled is gated, and its rejection settles with PERMISSION_DENIED. -/
theorem C2_denied_approval_witness :
    requiresManualApproval true
      ⟨"a9", ToolName.browser_click, "#pay", "", "", "", "", "Submit Payment"⟩ = true ∧
    (handleApproval (Except.ok ())
        ⟨true,
         [("a9", ⟨"a9", ToolName.browser_click, "#pay", "", "", "", "", "Submit Payment"⟩)],
         some ⟨"a9", ToolName.browser_click, "Submit Payment"⟩⟩ "a9" false).2 =
      [ExtEvent.sent (.user_approval "a9" false),
       ExtEvent.hud "Failed: PERMISSION_DENIED",
       ExtEvent.sent (.tool_result_err "a9" .PERMISSION_DENIED)] :=
  ⟨by decide,
   (C2_denied_approval (Except.ok ())
      ⟨true,
       [("a9", ⟨"a9", ToolName.browser_click, "#pay", "", "", "", "", "Submit Payment"⟩)],
       some ⟨"a9", ToolName.browser_click, "Submit Payment"⟩⟩ "a9"
      ⟨"a9", ToolName.browser_click, "#pay", "", "", "", "", "Submit Payment"⟩ (by decide)).1⟩

/-- C4: a tool_result for a pending action id clears the deadline timer,
removes the entry and settles the outcome exactly once (resolve on ok=true,
reject with the normalized error code on ok=false); a tool_result whose id is
absent from the pending map is a silent no-op. -/
theorem C4_at_most_once_settlement (s : BrokerState) (actionId : String)
    (ok : Bool) (error : Option String) (tool : ToolName)
    (h : mapLookup s.pendingTools actionId = some tool) :
    (onToolResult s actionId ok error).2 =
      [BrokerEvent.timerCleared actionId,
       BrokerEvent.settle
         (if ok then .resolved actionId else .rejected actionId (toErrorCode error))] ∧
    mapLookup (onToolResult s actionId ok error).1.pendingTools actionId = none ∧
    (∀ ok2 error2,
      onToolResult (onToolResult s actionId ok error).1 actionId ok2 error2 =
        ((onToolResult s actionId ok error).1, [])) ∧
    (∀ s2 : BrokerState, ∀ id2, mapLookup s2.pendingTools id2 = none →
      onToolResult s2 id2 ok error = (s2, [])) := by
  refine ⟨?_, ?_, ?_, ?_⟩
  · simp [onToolResult, h]
  · simp [onToolResult, h, mapLookup_delete_self]
  · intro ok2 error2
    simp [onToolResult, h, mapLookup_delete_self]
  · intro s2 id2 h2
    simp [onToolResult, h2]

/-- C4 witness: settling a concrete pending call and replaying the same
result. -/
theorem C4_at_most_once_settlement_witness :
    (onToolResult ⟨⟨false, false, []⟩, [("x1", ToolName.browser_find)]⟩ "x1" true none).2 =
      [BrokerEvent.timerCleared "x1", BrokerEvent.settle (.resolved "x1")] :=
  (C4_at_most_once_settlement _ "x1" true none ToolName.browser_find (by decide)).1

/-- C5: a registered tool call whose deadline fires is removed from the
pending map and rejected with TIMEOUT, and a late tool_result for it is a
no-op; the deadline is 5 s for find/highlight, 30 s for navigate and 60 s for
click/type. -/
theorem C5_timeout (s : BrokerState) (actionId : String) (tool : ToolName)
    (h : mapLookup s.pendingTools actionId = some tool) :
    (fireToolTimeout s actionId).2 = [BrokerEvent.settle (.rejected actionId .TIMEOUT)] ∧
    mapLookup (fireToolTimeout s actionId).1.pendingTools actionId = none ∧
    (∀ ok error, onToolResult (fireToolTimeout s actionId).1 actionId ok error =
      ((fireToolTimeout s actionId).1, [])) ∧
    (∀ s2 : BrokerState, ∀ id2 tool2,
      mapLookup (registerToolCall s2 id2 tool2).pendingTools id2 = some tool2) ∧
    toolTimeoutMs ToolName.browser_find = 5000 ∧
    toolTimeoutMs ToolName.browser_highlight = 5000 ∧
    toolTimeoutMs ToolName.browser_navigate = 30000 ∧
    toolTimeoutMs ToolName.browser_click = 60000 ∧
    toolTimeoutMs ToolName.browser_type = 60000 := by
  refine ⟨?_, ?_, ?_, ?_, by decide, by decide, by decide, by decide, by decide⟩
  · simp [fireToolTimeout, h]
  · simp [fireToolTimeout, h, mapLookup_delete_self]
  · intro ok error
    simp [fireToolTimeout, h, onToolResult, mapLookup_delete_self]
  · intro s2 id2 tool2
    exact mapLookup_set_self _ _ _

/-- C5 witness: a concrete find call timing out. -/
theorem C5_timeout_witness :
    (fireToolTimeout ⟨⟨false, false, []⟩, [("f1", ToolName.browser_find)]⟩ "f1").2 =
      [BrokerEvent.settle (.rejected "f1" .TIMEOUT)] :=
  (C5_timeout _ "f1" ToolName.browser_find (by decide)).1

theorem countFinals_append (l1 l2 : List BrokerEvent) :
    countFinals (l1 ++ l2) = countFinals l1 + countFinals l2 := by
  simp [countFinals, List.countP_append]

theorem cancel_reject_events_no_final (l : List (String × ToolName)) :
    countFinals (l.flatMap fun e =>
      [BrokerEvent.timerCleared e.1, BrokerEvent.settle (.rejected e.1 .CANCELLED)]) = 0 := by
  induction l with
  | nil => rfl
  | cons e t ih => simpa [countFinals, List.countP_cons] using ih

theorem cancel_reject_events_count (l : List (String × ToolName)) (id : String)
    (h : (l.map Prod.fst).Nodup) :
    ((l.flatMap fun e =>
        [BrokerEvent.timerCleared e.1, BrokerEvent.settle (.rejected e.1 .CANCELLED)]).countP
      (fun ev => ev = BrokerEvent.settle (.rejected id .CANCELLED))) =
      (if id ∈ l.map Prod.fst then 1 else 0) := by
  induction l with
  | nil => rfl
  | cons e t ih =>
    simp only [List.map_cons, List.nodup_cons] at h
    obtain ⟨hne, hnd⟩ := h
    have hcp : (([BrokerEvent.timerCleared e.1,
        BrokerEvent.settle (.rejected e.1 .CANCELLED)]).countP
          (fun ev => ev = BrokerEvent.settle (.rejected id .CANCELLED))) =
        (if e.1 = id then 1 else 0) := by
      by_cases he : e.1 = id <;> simp [List.countP_cons, he]
    rw [List.flatMap_cons, List.countP_append, hcp, ih hnd]
    by_cases he : e.1 = id
    · subst he
      simp [hne]
    · have he2 : ¬ id = e.1 := fun hh => he hh.symm
      by_cases hm : id ∈ List.map Prod.fst t
      · simp [he, hm, List.mem_cons]
      · simp [he, he2, hm, List.mem_cons]

theorem applyTurnOp_finals (s : BrokerState) (op : TurnOp) :
    countFinals (applyTurnOp s op).2 + (if s.run.finalSent then 1 else 0) =
      (if (applyTurnOp s op).1.run.finalSent then 1 else 0) := by
  cases op with
  | toolResult id ok err =>
    cases h : mapLookup s.pendingTools id <;>
      simp [applyTurnOp, onToolResult, h, countFinals, List.countP_cons]
  | fireTimeout id =>
    cases h : mapLookup s.pendingTools id <;>
      simp [applyTurnOp, fireToolTimeout, h, countFinals, List.countP_cons]
  | register id tool => simp [applyTurnOp, registerToolCall, countFinals]
  | step t => simp [applyTurnOp, appendStepOp, countFinals, List.countP_cons]
  | cancel =>
    simp only [applyTurnOp, cancelRun]
    rw [countFinals_append, countFinals_append, cancel_reject_events_no_final]
    cases h : s.run.finalSent <;>
      simp [countFinals, List.countP_cons, List.countP_nil]

theorem applyTurnOp_finalSent_cancelled (s : BrokerState) (op : TurnOp)
    (h : s.run.finalSent = true → s.run.cancelled = true) :
    (applyTurnOp s op).1.run.finalSent = true → (applyTurnOp s op).1.run.cancelled = true := by
  cases op with
  | toolResult id ok err =>
    cases h2 : mapLookup s.pendingTools id <;>
      simpa [applyTurnOp, onToolResult, h2] using h
  | fireTimeout id =>
    cases h2 : mapLookup s.pendingTools id <;>
      simpa [applyTurnOp, fireToolTimeout, h2] using h
  | register id tool => simpa [applyTurnOp, registerToolCall] using h
  | step t => simpa [applyTurnOp, appendStepOp] using h
  | cancel => simp [applyTurnOp, cancelRun]

theorem runTurnOps_finals (ops : List TurnOp) (s : BrokerState) :
    countFinals (runTurnOps s ops).2 + (if s.run.finalSent then 1 else 0) =
      (if (runTurnOps s ops).1.run.finalSent then 1 else 0) := by
  induction ops generalizing s with
  | nil => simp [runTurnOps, countFinals]
  | cons op rest ih =>
    have h1 := applyTurnOp_finals s op
    have h2 := ih (applyTurnOp s op).1
    simp only [runTurnOps, countFinals_append]
    omega

theorem runTurnOps_finalSent_cancelled (ops : List TurnOp) (s : BrokerState)
    (h : s.run.finalSent = true → s.run.cancelled = true) :
    (runTurnOps s ops).1.run.finalSent = true →
      (runTurnOps s ops).1.run.cancelled = true := by
  induction ops generalizing s with
  | nil => simpa [runTurnOps] using h
  | cons op rest ih =>
    simp only [runTurnOps]
    exact ih (applyTurnOp s op).1 (applyTurnOp_finalSent_cancelled s op h)

theorem applyTurnEnd_finals (s : BrokerState) (e : TurnEnd)
    (himp : s.run.finalSent = true → s.run.cancelled = true) :
    countFinals (applyTurnEnd s e).2 + (if s.run.finalSent then 1 else 0) ≤ 1 := by
  cases e with
  | success t =>
    by_cases hc : s.run.cancelled = true ∨ s.run.finalSent = true
    · simp only [applyTurnEnd, finishTurnSuccess, if_pos hc, countFinals, List.countP_nil]
      split <;> omega
    · push_neg at hc
      simp only [applyTurnEnd, finishTurnSuccess, if_neg (by tauto : ¬ (s.run.cancelled = true ∨ s.run.finalSent = true)),
        countFinals, List.countP_cons, List.countP_nil, if_neg hc.2]
      simp
  | failure m =>
    by_cases hc : s.run.cancelled = true
    · simp only [applyTurnEnd, failTurn, if_pos hc, countFinals, List.countP_nil]
      split <;> omega
    · have hns : ¬ s.run.finalSent = true := fun hfs => hc (himp hfs)
      simp only [applyTurnEnd, failTurn, if_neg hc, countFinals, List.countP_cons,
        List.countP_nil, if_neg hns]
      simp

/-- C3: cancelling a session with an active run sets the run cancelled flag
(and no later turn operation unsets it), rejects each pending call with
CANCELLED exactly once and empties the pending map (after which further
tool results are no-ops), sends the terminal cancelled answer exactly when no
final was sent yet, and every turn starting from a fresh run emits at most
one final answer. -/
theorem C3_cancellation (s : BrokerState)
    (h : (s.pendingTools.map Prod.fst).Nodup) :
    (cancelRun s).1.run.cancelled = true ∧
    (∀ op : TurnOp, (applyTurnOp (cancelRun s).1 op).1.run.cancelled = true) ∧
    (∀ e : TurnEnd, (applyTurnEnd (cancelRun s).1 e).1.run.cancelled = true) ∧
    (∀ id ∈ s.pendingTools.map Prod.fst,
      (cancelRun s).2.countP
        (fun ev => ev = BrokerEvent.settle (.rejected id .CANCELLED)) = 1) ∧
    (cancelRun s).1.pendingTools = [] ∧
    (∀ id ok error,
      onToolResult (cancelRun s).1 id ok error = ((cancelRun s).1, [])) ∧
    (s.run.finalSent = false →
      countFinals (cancelRun s).2 = 1 ∧
      BrokerEvent.finalAnswer "Cancelled by user." ∈ (cancelRun s).2) ∧
    (s.run.finalSent = true → countFinals (cancelRun s).2 = 0) ∧
    (∀ (pend : List (String × ToolName)) (ops : List TurnOp) (fin : Option TurnEnd),
      countFinals (runTurn ⟨freshRun, pend⟩ ops fin).2 ≤ 1) := by
  refine ⟨rfl, ?_, ?_, ?_, rfl, ?_, ?_, ?_, ?_⟩
  · intro op
    cases op with
    | toolResult id ok err => simp [applyTurnOp, onToolResult, cancelRun, mapLookup]
    | fireTimeout id => simp [applyTurnOp, fireToolTimeout, cancelRun, mapLookup]
    | register id tool => simp [applyTurnOp, registerToolCall, cancelRun]
    | step t => simp [applyTurnOp, appendStepOp, cancelRun]
    | cancel => simp [applyTurnOp, cancelRun]
  · intro e
    cases e <;> simp [applyTurnEnd, finishTurnSuccess, failTurn, cancelRun]
  · intro id hid
    have h0 := cancel_reject_events_count s.pendingTools id h
    simp only [cancelRun, List.countP_append]
    rw [h0]
    cases hf : s.run.finalSent <;> simp [hid, List.countP_cons]
  · intro id ok error
    simp [onToolResult, cancelRun, mapLookup]
  · intro hf
    constructor
    · simp only [cancelRun, hf]
      rw [countFinals_append, countFinals_append, cancel_reject_events_no_final]
      simp [countFinals, List.countP_cons, List.countP_nil]
    · simp [cancelRun, hf]
  · intro hf
    simp only [cancelRun, hf]
    rw [countFinals_append, countFinals_append, cancel_reject_events_no_final]
    simp [countFinals, List.countP_cons, List.countP_nil]
  · intro pend ops fin
    have h1 := runTurnOps_finals ops ⟨freshRun, pend⟩
    have h2 := runTurnOps_finalSent_cancelled ops ⟨freshRun, pend⟩ (by simp [freshRun])
    rw [show (BrokerState.mk freshRun pend).run.finalSent = false from rfl] at h1
    rw [if_neg (by decide), Nat.add_zero] at h1
    cases fin with
    | none =>
      simp only [runTurn]
      rw [h1]
      split <;> omega
    | some e =>
      have h3 := applyTurnEnd_finals (runTurnOps ⟨freshRun, pend⟩ ops).1 e h2
      simp only [runTurn, countFinals_append]
      rw [h1]
      omega

/-- C3 witness: cancelling a run with one pending find call sets the flag and
rejects that call with CANCELLED exactly once. -/
theorem C3_cancellation_witness :
    (cancelRun ⟨⟨false, false, []⟩, [("c1", ToolName.browser_find)]⟩).1.run.cancelled = true ∧
    (cancelRun ⟨⟨false, false, []⟩, [("c1", ToolName.browser_find)]⟩).2.countP
      (fun ev => ev = BrokerEvent.settle (.rejected "c1" .CANCELLED)) = 1 :=
  ⟨(C3_cancellation ⟨⟨false, false, []⟩, [("c1", ToolName.browser_find)]⟩ (by decide)).1,
   (C3_cancellation ⟨⟨false, false, []⟩, [("c1", ToolName.browser_find)]⟩
      (by decide)).2.2.2.1 "c1" (by decide)⟩

theorem ensureSingle_ok_iff (s : ToolSessionState) (tool : ToolName)
    (h : tool ≠ ToolName.browser_find) :
    ensureSingleCandidateBeforeAction s tool = .ok () ↔
      s.lastFindCandidates.length = 1 := by
  unfold ensureSingleCandidateBeforeAction
  rw [if_neg h]
  constructor
  · intro hok
    by_cases h0 : s.lastFindCandidates.length = 0
    · simp [h0] at hok
    · by_cases h1 : s.lastFindCandidates.length > 1
      · simp [h0, h1] at hok
      · omega
  · intro h1
    simp [h1]

theorem handlers_zero_candidates (s : ToolSessionState)
    (selArg lblArg txtArg : String) (rt : Except String JsonVal)
    (h : s.lastFindCandidates = []) :
    (browserHighlightHandler s selArg lblArg rt).result = .error zeroCandidatesMsg ∧
    (browserHighlightHandler s selArg lblArg rt).dispatches = [] ∧
    (browserClickHandler s selArg rt).result = .error zeroCandidatesMsg ∧
    (browserClickHandler s selArg rt).dispatches = [] ∧
    (browserTypeHandler s selArg txtArg rt).result = .error zeroCandidatesMsg ∧
    (browserTypeHandler s selArg txtArg rt).dispatches = [] := by
  have hz : ensureSingleCandidateBeforeAction s ToolName.browser_highlight =
      .error zeroCandidatesMsg := by
    simp [ensureSingleCandidateBeforeAction, h]
  have hz2 : ensureSingleCandidateBeforeAction s ToolName.browser_click =
      .error zeroCandidatesMsg := by
    simp [ensureSingleCandidateBeforeAction, h]
  have hz3 : ensureSingleCandidateBeforeAction s ToolName.browser_type =
      .error zeroCandidatesMsg := by
    simp [ensureSingleCandidateBeforeAction, h]
  simp [browserHighlightHandler, browserClickHandler, browserTypeHandler, hz, hz2, hz3]

/-- C6: a target-bearing tool (highlight, click, type) dispatches to the
actuator only when the session's candidate list has exactly one member; an
empty list fails before any dispatch with the better-query error, and more
than one member fails before any dispatch with the must-disambiguate error. -/
theorem C6_single_candidate_gating (s : ToolSessionState)
    (selArg lblArg txtArg : String) (rt : Except String JsonVal) :
    (s.lastFindCandidates = [] →
      (browserHighlightHandler s selArg lblArg rt).result = .error zeroCandidatesMsg ∧
      (browserHighlightHandler s selArg lblArg rt).dispatches = [] ∧
      (browserClickHandler s selArg rt).result = .error zeroCandidatesMsg ∧
      (browserClickHandler s selArg rt).dispatches = [] ∧
      (browserTypeHandler s selArg txtArg rt).result = .error zeroCandidatesMsg ∧
      (browserTypeHandler s selArg txtArg rt).dispatches = []) ∧
    (1 < s.lastFindCandidates.length →
      (browserHighlightHandler s selArg lblArg rt).result = .error multipleCandidatesMsg ∧
      (browserHighlightHandler s selArg lblArg rt).dispatches = [] ∧
      (browserClickHandler s selArg rt).result = .error multipleCandidatesMsg ∧
      (browserClickHandler s selArg rt).dispatches = [] ∧
      (browserTypeHandler s selArg txtArg rt).result = .error multipleCandidatesMsg ∧
      (browserTypeHandler s selArg txtArg rt).dispatches = []) ∧
    ((browserHighlightHandler s selArg lblArg rt).dispatches ≠ [] →
      s.lastFindCandidates.length = 1) ∧
    ((browserClickHandler s selArg rt).dispatches ≠ [] →
      s.lastFindCandidates.length = 1) ∧
    ((browserTypeHandler s selArg txtArg rt).dispatches ≠ [] →
      s.lastFindCandidates.length = 1) := by
  refine ⟨fun h => handlers_zero_candidates s selArg lblArg txtArg rt h, ?_, ?_, ?_, ?_⟩
  · intro h
    have h0 : ¬ s.lastFindCandidates.length = 0 := by omega
    have hz : ensureSingleCandidateBeforeAction s ToolName.browser_highlight =
        .error multipleCandidatesMsg := by
      simp [ensureSingleCandidateBeforeAction, h0, h]
    have hz2 : ensureSingleCandidateBeforeAction s ToolName.browser_click =
        .error multipleCandidatesMsg := by
      simp [ensureSingleCandidateBeforeAction, h0, h]
    have hz3 : ensureSingleCandidateBeforeAction s ToolName.browser_type =
        .error multipleCandidatesMsg := by
      simp [ensureSingleCandidateBeforeAction, h0, h]
    simp [browserHighlightHandler, browserClickHandler, browserTypeHandler, hz, hz2, hz3]
  · intro h
    cases h0 : ensureSingleCandidateBeforeAction s ToolName.browser_highlight with
    | error e => simp [browserHighlightHandler, h0] at h
    | ok u =>
      exact (ensureSingle_ok_iff s ToolName.browser_highlight (by decide)).1 (by rw [h0])
  · intro h
    cases h0 : ensureSingleCandidateBeforeAction s ToolName.browser_click with
    | error e => simp [browserClickHandler, h0] at h
    | ok u =>
      exact (ensureSingle_ok_iff s ToolName.browser_click (by decide)).1 (by rw [h0])
  · intro h
    cases h0 : ensureSingleCandidateBeforeAction s ToolName.browser_type with
    | error e => simp [browserTypeHandler, h0] at h
    | ok u =>
      exact (ensureSingle_ok_iff s ToolName.browser_type (by decide)).1 (by rw [h0])

/-- C6 witness: Scenario D, a click after a find returning two candidates is
rejected with the must-disambiguate error and nothing is dispatched. -/
theorem C6_single_candidate_gating_witness :
    (browserClickHandler ⟨[⟨"cand-1", "A", "#a"⟩, ⟨"cand-2", "B", "#b"⟩]⟩ "#a"
        (.ok .null)).result = .error multipleCandidatesMsg ∧
    (browserClickHandler ⟨[⟨"cand-1", "A", "#a"⟩, ⟨"cand-2", "B", "#b"⟩]⟩ "#a"
        (.ok .null)).dispatches = [] :=
  ⟨((C6_single_candidate_gating ⟨[⟨"cand-1", "A", "#a"⟩, ⟨"cand-2", "B", "#b"⟩]⟩
      "#a" "" "" (.ok .null)).2.1 (by decide)).2.2.1,
   ((C6_single_candidate_gating ⟨[⟨"cand-1", "A", "#a"⟩, ⟨"cand-2", "B", "#b"⟩]⟩
      "#a" "" "" (.ok .null)).2.1 (by decide)).2.2.2.1⟩

/-- C10: a successful browser_navigate resets the session's candidate list to
empty, so any following highlight/click/type fails the single-candidate check
with the zero-candidates error before any dispatch, until a browser_find
repopulates the list wholesale from its parsed round-trip result. -/
theorem C10_navigate_resets_candidates (s : ToolSessionState)
    (urlArg : String) (raw : JsonVal) (hurl : jsTrim urlArg ≠ "")
    (selArg lblArg txtArg qArg : String) (rt : Except String JsonVal)
    (raw2 : JsonVal) (hq : jsTrim qArg ≠ "") :
    (browserNavigateHandler s urlArg (.ok raw)).state.lastFindCandidates = [] ∧
    (browserNavigateHandler s urlArg (.ok raw)).result = .ok .navigated ∧
    (browserClickHandler (browserNavigateHandler s urlArg (.ok raw)).state selArg rt).result
        = .error zeroCandidatesMsg ∧
    (browserClickHandler (browserNavigateHandler s urlArg (.ok raw)).state selArg rt).dispatches
        = [] ∧
    (browserHighlightHandler (browserNavigateHandler s urlArg (.ok raw)).state selArg lblArg
        rt).result = .error zeroCandidatesMsg ∧
    (browserHighlightHandler (browserNavigateHandler s urlArg (.ok raw)).state selArg lblArg
        rt).dispatches = [] ∧
    (browserTypeHandler (browserNavigateHandler s urlArg (.ok raw)).state selArg txtArg
        rt).result = .error zeroCandidatesMsg ∧
    (browserTypeHandler (browserNavigateHandler s urlArg (.ok raw)).state selArg txtArg
        rt).dispatches = [] ∧
    (browserFindHandler (browserNavigateHandler s urlArg (.ok raw)).state qArg
        (.ok raw2)).state.lastFindCandidates = parseFindResult raw2 := by
  have hnav : (browserNavigateHandler s urlArg (.ok raw)).state = ⟨[]⟩ := by
    simp [browserNavigateHandler, hurl]
  have hres : (browserNavigateHandler s urlArg (.ok raw)).result = .ok .navigated := by
    simp [browserNavigateHandler, hurl]
  rw [hnav]
  have hz := handlers_zero_candidates ⟨[]⟩ selArg lblArg txtArg rt rfl
  refine ⟨rfl, hres, hz.2.2.1, hz.2.2.2.1, hz.1, hz.2.1, hz.2.2.2.2.1, hz.2.2.2.2.2, ?_⟩
  simp [browserFindHandler, hq]

/-- C10 witness: after navigating away, a click is rejected for lack of
candidates. -/
theorem C10_navigate_resets_candidates_witness :
    (browserClickHandler
        (browserNavigateHandler ⟨[⟨"cand-1", "A", "#a"⟩]⟩ "example.com" (.ok .null)).state
        "#a" (.ok .null)).result = .error zeroCandidatesMsg :=
  (C10_navigate_resets_candidates ⟨[⟨"cand-1", "A", "#a"⟩]⟩ "example.com" .null
    (by decide) "#a" "" "" "q" (.ok .null) .null (by decide)).2.2.1

/-- C9 (amended): every rejected inbound envelope (not well-formed JSON,
lacking a string type/sessionId/token, or bearing a token different from the
shared secret) runs no per-session handler; the channel is closed exactly for
the well-formed envelopes whose token mismatches, while malformed envelopes
are dropped silently with the channel left open. -/
theorem C9_router_rejection (secret : String) (raw : Option JsonVal) :
    (claimRejectedEnvelope secret raw → (wsMessageHandler secret raw).handlerRan = false) ∧
    (normalizeMessage raw = none → wsMessageHandler secret raw = .droppedMalformed) ∧
    (∀ m, normalizeMessage raw = some m → m.token ≠ secret →
      wsMessageHandler secret raw = .closedInvalidToken) ∧
    ((wsMessageHandler secret raw).channelClosed = true ↔
      ∃ m, normalizeMessage raw = some m ∧ m.token ≠ secret) := by
  cases h : normalizeMessage raw with
  | none =>
    refine ⟨?_, ?_, ?_, ?_⟩
    · intro hrej
      simp [wsMessageHandler, h, RouteOutcome.handlerRan]
    · intro h2
      simp [wsMessageHandler, h]
    · intro m hm
      exact absurd hm (by simp)
    · simp [wsMessageHandler, h, RouteOutcome.channelClosed]
  | some m =>
    by_cases ht : m.token = secret
    · refine ⟨?_, ?_, ?_, ?_⟩
      · intro hrej
        rcases hrej with hnone | ⟨m2, hm2, htok⟩
        · rw [h] at hnone
          exact absurd hnone (by simp)
        · rw [h] at hm2
          injection hm2 with he
          exact absurd ht (he ▸ htok)
      · intro h2
        exact absurd h2 (by simp)
      · intro m2 hm2 htok
        injection hm2 with he
        exact absurd ht (he ▸ htok)
      · constructor
        · intro hc
          simp only [wsMessageHandler, h, ht, ne_eq, not_true_eq_false, if_false] at hc
          cases h3 : msgTagOf m.msgType <;>
            simp [h3, RouteOutcome.channelClosed] at hc
        · rintro ⟨m2, hm2, htok⟩
          injection hm2 with he
          exact absurd ht (he ▸ htok)
    · have hw : wsMessageHandler secret raw = .closedInvalidToken := by
        simp [wsMessageHandler, h, ht]
      refine ⟨?_, ?_, ?_, ?_⟩
      · intro hrej
        simp [hw, RouteOutcome.handlerRan]
      · intro h2
        exact absurd h2 (by simp)
      · intro m2 hm2 htok
        exact hw
      · simp only [hw, RouteOutcome.channelClosed, true_iff]
        exact ⟨m, rfl, ht⟩

/-- C9 counterexample: a malformed envelope (one `JSON.parse` rejects) is in
the claim's rejection class, yet the `ws.on("message")` handler just drops
it — the channel is not closed. -/
theorem C9_counterexample :
    claimRejectedEnvelope "secret-token" none ∧
    (wsMessageHandler "secret-token" none).channelClosed = false :=
  ⟨Or.inl rfl, rfl⟩

/-- C9 witness: a well-formed envelope with a wrong token closes the
channel without dispatch. -/
theorem C9_router_rejection_witness :
    wsMessageHandler "secret-token"
      (some (.objVal [("type", .strVal "cancel"), ("sessionId", .strVal "s1"),
        ("token", .strVal "wrong")])) = .closedInvalidToken :=
  (C9_router_rejection "secret-token"
      (some (.objVal [("type", .strVal "cancel"), ("sessionId", .strVal "s1"),
        ("token", .strVal "wrong")]))).2.2.1
    ⟨"cancel", "s1", "wrong",
      .objVal [("type", .strVal "cancel"), ("sessionId", .strVal "s1"),
        ("token", .strVal "wrong")]⟩
    rfl (by decide)

theorem selIfUnique_eq_some (root : Dom) (x s : Sel)
    (h : selIfUnique root x = some s) : countMatches root s = 1 := by
  unfold selIfUnique at h
  split at h
  · rename_i hu
    injection h with he
    subst he
    simpa [isUniqueSelector] using hu
  · exact absurd h (by simp)

theorem optStep_unique (root : Dom) (c : Prop) [Decidable c] (x s : Sel)
    (h : (if c then selIfUnique root x else none) = some s) :
    countMatches root s = 1 := by
  split at h
  · exact selIfUnique_eq_some root x s h
  · exact absurd h (by simp)

theorem structuralLoopRev_inl_unique (root : Dom) (rev : List Nat)
    (segs : List SimpleSel) (s : Sel)
    (h : structuralLoopRev root rev segs = .inl s) : countMatches root s = 1 := by
  induction rev generalizing segs with
  | nil =>
    unfold structuralLoopRev at h
    split at h
    · exact absurd h (by simp)
    · exact absurd h (by simp)
  | cons i rest ih =>
    unfold structuralLoopRev at h
    split at h
    · exact absurd h (by simp)
    · dsimp only at h
      split at h
      · rename_i hu
        injection h with he
        subst he
        simpa [isUniqueSelector] using hu
      · exact ih _ h

/-- C7 (amended): for every present element, the synthesized selector either
re-resolves to exactly one element (every attribute step and every early
return of the structural loop is accepted only after the uniqueness check),
or it is the structural loop's capped exit path, which `buildSelector`
returns as a best effort without verifying uniqueness. -/
theorem C7_selector_round_trip (root : Dom) (p : List Nat) (e : Dom)
    (h : elemAt root p = some e) :
    countMatches root (buildSelector root p) = 1 ∨
    (∃ segs, structuralLoopRev root p.reverse [] = Sum.inr segs ∧
      buildSelector root p =
        (if segs.isEmpty then ⟨[SimpleSel.typeSel (tagOf e)]⟩ else ⟨segs⟩)) := by
  unfold buildSelector
  rw [h]
  dsimp only
  split
  · rename_i s1 h1
    exact Or.inl (optStep_unique root _ _ s1 h1)
  · split
    · rename_i s2 h2
      exact Or.inl (optStep_unique root _ _ s2 h2)
    · split
      · rename_i s3 h3
        exact Or.inl (optStep_unique root _ _ s3 h3)
      · split
        · rename_i s4 h4
          exact Or.inl (optStep_unique root _ _ s4 h4)
        · split
          · rename_i s5 h5
            exact Or.inl (optStep_unique root _ _ s5 h5)
          · split
            · rename_i s6 h6
              exact Or.inl (structuralLoopRev_inl_unique root p.reverse [] s6 h6)
            · rename_i segs h7
              exact Or.inr ⟨segs, h7, rfl⟩

/-- C7 counterexample: in `cexDoc` the button at `cexBtnPath` is present, yet
its synthesized selector (the capped best-effort structural path) matches two
elements when re-resolved against the same document, refuting the claim that
every step of the fallback chain, the structural fallback included, is
verified unique. -/
theorem C7_counterexample :
    (elemAt cexDoc cexBtnPath).isSome = true ∧
    countMatches cexDoc (buildSelector cexDoc cexBtnPath) = 2 := by
  constructor
  · decide
  · decide

/-- C7 witness: the selector synthesized for a button with an id resolves
uniquely (left disjunct) in its document. -/
theorem C7_selector_round_trip_witness :
    countMatches idBtnDoc (buildSelector idBtnDoc [0, 0]) = 1 ∨
    (∃ segs, structuralLoopRev idBtnDoc (List.reverse [0, 0]) [] = Sum.inr segs ∧
      buildSelector idBtnDoc [0, 0] =
        (if segs.isEmpty
          then ⟨[SimpleSel.typeSel (tagOf (.elem "button" [("id", "go")] plainCss "Go" "" []))]⟩
          else ⟨segs⟩)) :=
  C7_selector_round_trip idBtnDoc [0, 0]
    (.elem "button" [("id", "go")] plainCss "Go" "" []) rfl

theorem mem_sortedInsertDesc (x y : RankedItem) (l : List RankedItem)
    (h : y ∈ sortedInsertDesc x l) : y = x ∨ y ∈ l := by
  induction l with
  | nil =>
    simp only [sortedInsertDesc, List.mem_singleton] at h
    exact Or.inl h
  | cons z t ih =>
    unfold sortedInsertDesc at h
    split at h
    · rcases List.mem_cons.1 h with h1 | h1
      · exact Or.inl h1
      · exact Or.inr h1
    · rcases List.mem_cons.1 h with h1 | h1
      · exact Or.inr (List.mem_cons.2 (Or.inl h1))
      · rcases ih h1 with h2 | h2
        · exact Or.inl h2
        · exact Or.inr (List.mem_cons.2 (Or.inr h2))

theorem mem_sortDescStable (y : RankedItem) (l : List RankedItem)
    (h : y ∈ sortDescStable l) : y ∈ l := by
  induction l with
  | nil =>
    simp only [sortDescStable, List.foldr_nil] at h
    exact absurd h (List.not_mem_nil y)
  | cons z t ih =>
    have h0 : y ∈ sortedInsertDesc z (sortDescStable t) := by
      simpa [sortDescStable] using h
    rcases mem_sortedInsertDesc z y (sortDescStable t) h0 with h1 | h1
    · exact List.mem_cons.2 (Or.inl h1)
    · exact List.mem_cons.2 (Or.inr (ih h1))

/-- C8: resolution discards zero-score elements (every ranked element kept
has positive score), and Scenario A: resolving "search box" on a page whose
only allow-listed element is a visible `input[name="q"][placeholder="Search"]`
yields exactly one candidate, whose selector re-resolves to exactly one
element, namely that input. -/
theorem C8_resolution_discards_and_scenario :
    (∀ (root : Dom) (query : String) (item : RankedItem),
      item ∈ rankedElements root query → 0 < item.score) ∧
    findCandidates scDoc "search box" =
      [⟨"cand-1", "Search", "input[name=\x22q\x22]"⟩] ∧
    countMatches scDoc (buildSelector scDoc [0, 0]) = 1 ∧
    matchesSel scDoc [0, 0] (buildSelector scDoc [0, 0]) = true ∧
    elemAt scDoc [0, 0] = some scInput := by
  refine ⟨?_, by decide, by decide, by decide, rfl⟩
  intro root query item hmem
  simp only [rankedElements] at hmem
  have h1 := List.mem_of_mem_take hmem
  have h2 := mem_sortDescStable _ _ h1
  have h3 := List.mem_filter.1 h2
  simpa using h3.2

/-- C8 witness: the scenario's single ranked element has positive score. -/
theorem C8_resolution_discards_and_scenario_witness :
    0 < (⟨[0, 0], scInput, 35⟩ : RankedItem).score :=
  C8_resolution_discards_and_scenario.1 scDoc "search box" ⟨[0, 0], scInput, 35⟩
    (by
      rw [show rankedElements scDoc "search box" = [⟨[0, 0], scInput, 35⟩] from rfl]
      exact List.mem_singleton.2 rfl)

end CopilotBrowser
